import Mathlib

/-!
Formal model of the Haven-Windows backend (src/index.js).

The backend is a set of HTTP route handlers over three MongoDB collections
(categories, promo, gallery) accessed through mongoose.  Each handler is a
single store operation; we embed every collection as an in-memory list of
documents kept in insertion order (the natural order an unindexed find
returns), and each handler as a pure function from the request data and the
current collection state to a response and the next state.

Modelled store behaviour, taken from the source and the semantics of the
store client it calls:
* `Category.create` casts the body, validates the whole document (required
  fields, enum membership of `type`, required fields of each embedded
  product), applies the schema default for `specs`, and is rejected by the
  unique index on `id` when a stored document already carries the same `id`.
* `findOneAndUpdate({id}, body, {new, upsert, runValidators})` wraps the
  plain body in a field-wise set; on a match it overwrites exactly the
  fields present in the body, on no match it inserts a document built from
  the filter key and the body, the body winning on the `id` field.  Update
  validators check only the paths present in the body.  The unique index
  on `id` rejects a resulting duplicate, leaving the collection unchanged.
* `findOneAndDelete` / `findByIdAndDelete` remove the first match and
  succeed when nothing matches.
* `deleteMany({})` empties the collection unconditionally.
* Destructuring a missing array field succeeds, so in both sync handlers
  the delete runs before iteration or `insertMany` fails on the missing
  array.
* `insertMany` validates every document before writing, inserting nothing
  on a validation failure; timestamps give each stored gallery document a
  creation time, and the gallery list sorts by that time, descending,
  insertion order breaking ties.
* Casting a route parameter to an internal store identifier fails on a
  string that is neither 24 hexadecimal characters nor 12 characters long.

Generated metadata the claims bracket out (`updatedAt`, the internal
identifier of category and promo documents) is left out of the document
model; the gallery model keeps `createdAt` (its list order depends on it)
and the internal identifier `oid` (its delete is addressed by it), both
supplied by the store, modelled as explicit parameters.
-/

set_option autoImplicit false

namespace Haven

/-- A stored embedded product, after schema casting (`specs` defaulted). -/
structure Product where
  id : Option String := none
  title : Option String := none
  description : Option String := none
  longDescription : Option String := none
  image : Option String := none
  specs : List (String × String) := []
  deriving DecidableEq

/-- An embedded product as it appears in a request body. -/
structure ProductBody where
  id : Option String := none
  title : Option String := none
  description : Option String := none
  longDescription : Option String := none
  image : Option String := none
  specs : Option (List (String × String)) := none
  deriving DecidableEq

/-- A stored category document.  Fields a write never supplied are absent. -/
structure CategoryDoc where
  id : Option String := none
  type : Option String := none
  title : Option String := none
  description : Option String := none
  image : Option String := none
  products : Option (List Product) := none
  deriving DecidableEq

/-- A category request body: any subset of the fields may be present. -/
structure CategoryBody where
  id : Option String := none
  type : Option String := none
  title : Option String := none
  description : Option String := none
  image : Option String := none
  products : Option (List ProductBody) := none
  deriving DecidableEq

/-- A stored promo document. -/
structure PromoDoc where
  tagText : Option String := none
  title : Option String := none
  description : Option String := none
  highlightText : Option String := none
  buttonText : Option String := none
  buttonLink : Option String := none
  deriving DecidableEq

/-- A promo request body: any subset of the six fields may be present. -/
structure PromoBody where
  tagText : Option String := none
  title : Option String := none
  description : Option String := none
  highlightText : Option String := none
  buttonText : Option String := none
  buttonLink : Option String := none
  deriving DecidableEq

/-- A stored gallery document.  `oid` is the store-assigned internal
identifier and `createdAt` the store-assigned creation time. -/
structure GalleryDoc where
  oid : String := ""
  url : Option String := none
  title : Option String := none
  location : Option String := none
  category : Option String := none
  createdAt : Nat := 0
  deriving DecidableEq

/-- A gallery request body. -/
structure GalleryBody where
  url : Option String := none
  title : Option String := none
  location : Option String := none
  category : Option String := none
  deriving DecidableEq

/-- Schema cast of an embedded product: `specs` defaults to the empty bag. -/
def castProduct (p : ProductBody) : Product :=
  { id := p.id, title := p.title, description := p.description,
    longDescription := p.longDescription, image := p.image,
    specs := p.specs.getD [] }

/-- Subdocument validation of an embedded product: `id` and `title` are
required. -/
def validProduct (p : ProductBody) : Bool :=
  p.id.isSome && p.title.isSome

/-- The `type` enum of the category schema. -/
def validTypeValue (t : String) : Bool :=
  decide (t = "windows") || decide (t = "doors")

/-- Full-document validation run by `Category.create`: `id`, `type`, `title`
required, `type` in the enum, every embedded product valid. -/
def validCategoryBody (b : CategoryBody) : Bool :=
  b.id.isSome &&
  (match b.type with
   | some t => validTypeValue t
   | none => false) &&
  b.title.isSome &&
  (b.products.getD []).all validProduct

/-- Schema validation of a stored category document, used to ask whether a
document the store holds satisfies the rules `Category.create` enforces. -/
def validCategoryDoc (d : CategoryDoc) : Bool :=
  d.id.isSome &&
  (match d.type with
   | some t => validTypeValue t
   | none => false) &&
  d.title.isSome &&
  (d.products.getD []).all (fun p => p.id.isSome && p.title.isSome)

/-- Schema cast of a created category document: products default to the
empty list and each product is cast. -/
def castCategory (b : CategoryBody) : CategoryDoc :=
  { id := b.id, type := b.type, title := b.title,
    description := b.description, image := b.image,
    products := some ((b.products.getD []).map castProduct) }

/-- `GET /api/products`: return every stored category document, natural
(insertion) order. -/
def productsList (s : List CategoryDoc) : List CategoryDoc := s

/-- `Category.create`: validate the whole cast document, enforce the unique
index on `id`, append the document.  Returns the created document and the
next state, or the thrown error message. -/
def categoryCreate (b : CategoryBody) (s : List CategoryDoc) :
    Except String (CategoryDoc × List CategoryDoc) :=
  if validCategoryBody b then
    let d := castCategory b
    if s.any (fun e => decide (e.id = d.id)) then
      Except.error "duplicate key"
    else
      Except.ok (d, s ++ [d])
  else
    Except.error "validation failed"

/-- The insertion loop of `POST /api/products/sync`: create each body in
turn, stopping at the first failure.  Returns the error message of the
failure, if any, and the state reached. -/
def insertCats : List CategoryBody → List CategoryDoc →
    Option String × List CategoryDoc
  | [], acc => (none, acc)
  | c :: rest, acc =>
    match categoryCreate c acc with
    | Except.ok (_, acc') => insertCats rest acc'
    | Except.error e => (some e, acc)

/-- `POST /api/products/sync`: destructure the `categories` field, empty the
collection, then create the given documents one at a time.  A missing
`categories` field fails only after the delete has run; on success the
response reports the input length. -/
def productsSync (body : Option (List CategoryBody)) (_s : List CategoryDoc) :
    Except String Nat × List CategoryDoc :=
  match body with
  | none => (Except.error "categories is not iterable", [])
  | some cats =>
    match insertCats cats [] with
    | (none, acc) => (Except.ok cats.length, acc)
    | (some e, acc) => (Except.error e, acc)

/-- Split a category collection at the first document whose `id` field
equals the given key: the documents before it, the document, the documents
after it. -/
def splitAtId (key : String) :
    List CategoryDoc → Option (List CategoryDoc × CategoryDoc × List CategoryDoc)
  | [] => none
  | d :: ds =>
    if d.id = some key then
      some ([], d, ds)
    else
      match splitAtId key ds with
      | some (pre, e, post) => some (d :: pre, e, post)
      | none => none

/-- Update validators of `findOneAndUpdate` check only the paths present in
the body: an enum check when `type` is set, subdocument validation when
`products` is set.  Required fields absent from the body are not checked. -/
def validUpdateBody (b : CategoryBody) : Bool :=
  (match b.type with
   | some t => validTypeValue t
   | none => true) &&
  (match b.products with
   | some ps => ps.all validProduct
   | none => true)

/-- The field-wise set a matched document receives: every field present in
the body takes the body value, every other field is kept; a present
`products` array replaces the whole array, cast. -/
def applyBodySet (b : CategoryBody) (d : CategoryDoc) : CategoryDoc :=
  { id := b.id <|> d.id, type := b.type <|> d.type, title := b.title <|> d.title,
    description := b.description <|> d.description, image := b.image <|> d.image,
    products :=
      match b.products with
      | some ps => some (ps.map castProduct)
      | none => d.products }

/-- The document an upsert inserts when no document matches the key: the
filter key plus the body fields, the body winning on `id`, insert defaults
applied to `products`. -/
def upsertNewDoc (key : String) (b : CategoryBody) : CategoryDoc :=
  { id := b.id <|> some key, type := b.type, title := b.title,
    description := b.description, image := b.image,
    products := some ((b.products.getD []).map castProduct) }

/-- `PUT /api/category/:id`: `findOneAndUpdate({id}, body, {new, upsert,
runValidators})`.  Validate the body paths; overwrite the fields of the
first match, or insert the upsert document when nothing matches; reject a
resulting duplicate `id` through the unique index, changing nothing.
Returns the resulting document and the next state, or the error. -/
def categoryUpsert (key : String) (b : CategoryBody) (s : List CategoryDoc) :
    Except String (CategoryDoc × List CategoryDoc) :=
  if validUpdateBody b then
    match splitAtId key s with
    | some (pre, d, post) =>
      let d' := applyBodySet b d
      if (pre ++ post).any (fun e => decide (e.id = d'.id)) then
        Except.error "duplicate key"
      else
        Except.ok (d', pre ++ d' :: post)
    | none =>
      let n := upsertNewDoc key b
      if s.any (fun e => decide (e.id = n.id)) then
        Except.error "duplicate key"
      else
        Except.ok (n, s ++ [n])
  else
    Except.error "validation failed"

/-- The collection state after `PUT /api/category/:id`: the new state on
success, the unchanged state when the handler reported an error. -/
def upsertState (key : String) (b : CategoryBody) (s : List CategoryDoc) :
    List CategoryDoc :=
  match categoryUpsert key b s with
  | Except.ok (_, s') => s'
  | Except.error _ => s

/-- `DELETE /api/category/:id`: `findOneAndDelete({id})` removes the first
match when there is one; the handler replies success either way. -/
def categoryDelete (key : String) (s : List CategoryDoc) :
    Bool × List CategoryDoc :=
  match splitAtId key s with
  | some (pre, _, post) => (true, pre ++ post)
  | none => (true, s)

/-- The hard-coded default promo object of `GET /api/promo`. -/
def defaultPromo : PromoDoc :=
  { tagText := some "Special Offer",
    title := some "Already have a quote?",
    description := some "We aim to beat any comparable written quotes by up to",
    highlightText := some "15%",
    buttonText := some "Learn More",
    buttonLink := some "#contact" }

/-- `GET /api/promo`: return the first stored promo document; when the
collection is empty, return the default object without writing anything. -/
def promoGet : List PromoDoc → PromoDoc × List PromoDoc
  | [] => (defaultPromo, [])
  | p :: rest => (p, p :: rest)

/-- `Object.assign(promo, body)`: every field present in the body takes the
body value, every other field keeps the stored value. -/
def mergePromo (p : PromoDoc) (b : PromoBody) : PromoDoc :=
  { tagText := b.tagText <|> p.tagText, title := b.title <|> p.title,
    description := b.description <|> p.description,
    highlightText := b.highlightText <|> p.highlightText,
    buttonText := b.buttonText <|> p.buttonText,
    buttonLink := b.buttonLink <|> p.buttonLink }

/-- `Promo.create(body)`: a new promo document from exactly the body
fields. -/
def promoFromBody (b : PromoBody) : PromoDoc :=
  { tagText := b.tagText, title := b.title, description := b.description,
    highlightText := b.highlightText, buttonText := b.buttonText,
    buttonLink := b.buttonLink }

/-- `PUT /api/promo`: merge the body into the first stored document and
persist it, or create a new document from the body when none exists.
Returns the resulting document and the next state. -/
def promoPut (b : PromoBody) : List PromoDoc → PromoDoc × List PromoDoc
  | [] => (promoFromBody b, [promoFromBody b])
  | p :: rest => (mergePromo p b, mergePromo p b :: rest)

/-- Gallery schema validation: `url`, `title`, `location` required. -/
def validGalleryBody (b : GalleryBody) : Bool :=
  b.url.isSome && b.title.isSome && b.location.isSome

/-- Schema cast of a stored gallery document: `category` defaults to
`"General"`; the store supplies the internal identifier and the creation
time. -/
def castGallery (oid : String) (t : Nat) (b : GalleryBody) : GalleryDoc :=
  { oid := oid, url := b.url, title := b.title, location := b.location,
    category := some (b.category.getD "General"), createdAt := t }

/-- Insert a gallery document, time-descending, before the first document
with a strictly older creation time (so equal times keep their relative
order). -/
def insertByTime (d : GalleryDoc) : List GalleryDoc → List GalleryDoc
  | [] => [d]
  | e :: es =>
    if e.createdAt ≤ d.createdAt then
      d :: e :: es
    else
      e :: insertByTime d es

/-- Stable sort of a gallery collection by creation time, newest first. -/
def sortByTimeDesc : List GalleryDoc → List GalleryDoc
  | [] => []
  | d :: ds => insertByTime d (sortByTimeDesc ds)

/-- `GET /api/gallery`: every stored document, sorted by creation time,
newest first. -/
def galleryList (s : List GalleryDoc) : List GalleryDoc :=
  sortByTimeDesc s

/-- `POST /api/gallery` (`Gallery.create`): validate, cast and append; the
store assigns the identifier `oid` and creation time `t`. -/
def galleryCreate (oid : String) (t : Nat) (b : GalleryBody)
    (s : List GalleryDoc) : Except String (GalleryDoc × List GalleryDoc) :=
  if validGalleryBody b then
    let d := castGallery oid t b
    Except.ok (d, s ++ [d])
  else
    Except.error "validation failed"

/-- The documents `insertMany` writes: the i-th body cast with the i-th
generated identifier, all at the same bulk-write time. -/
def insertManyDocs (gen : Nat → String) (t : Nat) :
    Nat → List GalleryBody → List GalleryDoc
  | _, [] => []
  | i, b :: rest => castGallery (gen i) t b :: insertManyDocs gen t (i + 1) rest

/-- `POST /api/gallery/sync`: destructure the `items` field, empty the
collection, then `insertMany` the given documents in one bulk write.  A
missing `items` field fails only after the delete has run; `insertMany`
validates every document before writing and inserts nothing on a
validation failure. -/
def gallerySync (gen : Nat → String) (t : Nat)
    (body : Option (List GalleryBody)) (_s : List GalleryDoc) :
    Except String Nat × List GalleryDoc :=
  match body with
  | none => (Except.error "items is not defined", [])
  | some items =>
    if items.all validGalleryBody then
      (Except.ok items.length, insertManyDocs gen t 0 items)
    else
      (Except.error "validation failed", [])

/-- A string casts to an internal store identifier exactly when it is 24
hexadecimal characters or 12 characters long. -/
def isHexChar (c : Char) : Bool :=
  c.isDigit || (decide ('a' ≤ c) && decide (c ≤ 'f')) ||
    (decide ('A' ≤ c) && decide (c ≤ 'F'))

/-- Well-formedness of a store identifier string. -/
def validObjectId (sId : String) : Bool :=
  (decide (sId.length = 24) && sId.data.all isHexChar) ||
    decide (sId.length = 12)

/-- The request-level content of a stored gallery document: everything but
the store-generated identifier and creation time. -/
def stripGenerated (d : GalleryDoc) : GalleryBody :=
  { url := d.url, title := d.title, location := d.location,
    category := d.category }

/-- A gallery body with the schema default for `category` applied: the
content a valid body is stored with. -/
def normalizeGallery (b : GalleryBody) : GalleryBody :=
  { url := b.url, title := b.title, location := b.location,
    category := some (b.category.getD "General") }

/-- Split a gallery collection at the first document with the given
internal identifier. -/
def splitAtOid (sId : String) :
    List GalleryDoc → Option (List GalleryDoc × GalleryDoc × List GalleryDoc)
  | [] => none
  | d :: ds =>
    if d.oid = sId then
      some ([], d, ds)
    else
      match splitAtOid sId ds with
      | some (pre, e, post) => some (d :: pre, e, post)
      | none => none

/-- `DELETE /api/gallery/:id`: casting the parameter fails on a malformed
identifier and the handler reports the cast error without touching the
collection; on a well-formed identifier `findByIdAndDelete` removes the
match when there is one and the handler replies success either way. -/
def galleryDeleteById (sId : String) (s : List GalleryDoc) :
    Except String Unit × List GalleryDoc :=
  if validObjectId sId then
    match splitAtOid sId s with
    | some (pre, _, post) => (Except.ok (), pre ++ post)
    | none => (Except.ok (), s)
  else
    (Except.error "Cast to ObjectId failed", s)

/-! ### Helper lemmas -/

theorem any_id_eq_false {s : List CategoryDoc} {i : Option String}
    (h : ∀ x ∈ s, ¬ x.id = i) :
    s.any (fun e => decide (e.id = i)) = false := by
  rw [List.any_eq_false]
  intro x hx
  simpa using h x hx

theorem splitAtId_eq_none_iff (key : String) :
    ∀ s : List CategoryDoc,
      splitAtId key s = none ↔ ∀ d ∈ s, ¬ d.id = some key
  | [] => by simp [splitAtId]
  | d :: ds => by
    by_cases hd : d.id = some key
    · simp [splitAtId, hd]
    · rw [splitAtId, if_neg hd]
      cases hrec : splitAtId key ds with
      | none =>
        have hds := (splitAtId_eq_none_iff key ds).mp hrec
        simp only [List.mem_cons]
        constructor
        · intro _ x hx
          rcases hx with hx | hx
          · subst hx; exact hd
          · exact hds x hx
        · intro _
          trivial
      | some trip =>
        obtain ⟨pre, e, post⟩ := trip
        have hspec := (splitAtId_eq_none_iff key ds)
        constructor
        · intro hcontra; exact absurd hcontra (by simp)
        · intro hall
          have hnone : splitAtId key ds = none := by
            rw [hspec]
            intro x hx
            exact hall x (List.mem_cons_of_mem d hx)
          rw [hnone] at hrec
          exact absurd hrec (by simp)

theorem splitAtId_spec (key : String) :
    ∀ (s pre post : List CategoryDoc) (d : CategoryDoc),
      splitAtId key s = some (pre, d, post) →
      s = pre ++ d :: post ∧ d.id = some key ∧ ∀ e ∈ pre, ¬ e.id = some key
  | [], pre, post, d, h => by simp [splitAtId] at h
  | a :: as, pre, post, d, h => by
    by_cases ha : a.id = some key
    · rw [splitAtId, if_pos ha] at h
      obtain ⟨h1, h2, h3⟩ : [] = pre ∧ a = d ∧ as = post := by
        simpa using h
      subst h1; subst h2; subst h3
      exact ⟨rfl, ha, by simp⟩
    · rw [splitAtId, if_neg ha] at h
      cases hrec : splitAtId key as with
      | none => rw [hrec] at h; simp at h
      | some trip =>
        obtain ⟨pre1, e, post1⟩ := trip
        rw [hrec] at h
        obtain ⟨h1, h2, h3⟩ : a :: pre1 = pre ∧ e = d ∧ post1 = post := by
          simpa using h
        obtain ⟨hs, hid, hpre⟩ := splitAtId_spec key as pre1 post1 e hrec
        subst h1; subst h2; subst h3
        refine ⟨by simp [hs], hid, ?_⟩
        intro x hx
        rcases List.mem_cons.mp hx with hxa | hxp
        · subst hxa; exact ha
        · exact hpre x hxp

theorem splitAtId_of_parts (key : String) (d : CategoryDoc)
    (hd : d.id = some key) :
    ∀ pre : List CategoryDoc, (∀ e ∈ pre, ¬ e.id = some key) →
      ∀ post, splitAtId key (pre ++ d :: post) = some (pre, d, post)
  | [], _, post => by simp [splitAtId, hd]
  | a :: as, h, post => by
    have ha : ¬ a.id = some key := h a (by simp)
    have ih := splitAtId_of_parts key d hd as
      (fun e he => h e (List.mem_cons_of_mem a he)) post
    simp only [List.cons_append, splitAtId, if_neg ha, List.append_eq]
    rw [ih]

theorem splitAtOid_fst_cases (sId : String) :
    ∀ s : List GalleryDoc,
      (galleryDeleteById sId s).1 = Except.ok () ∨
      (galleryDeleteById sId s).1 = Except.error "Cast to ObjectId failed" := by
  intro s
  unfold galleryDeleteById
  by_cases hv : validObjectId sId = true
  · rw [if_pos hv]
    cases splitAtOid sId s with
    | none => exact Or.inl rfl
    | some trip =>
      obtain ⟨pre, e, post⟩ := trip
      exact Or.inl rfl
  · rw [if_neg hv]
    exact Or.inr rfl

/-! ### Claim theorems -/

/-- Claim C4: on an empty promo collection, the promo Get operation returns
exactly the fixed default object (tag "Special Offer", title "Already have
a quote?", description "We aim to beat any comparable written quotes by up
to", highlight "15%", button "Learn More", link "#contact") and persists
nothing: the collection is still empty afterwards. -/
theorem promo_get_empty_returns_default_unpersisted :
    promoGet [] =
      ({ tagText := some "Special Offer",
         title := some "Already have a quote?",
         description := some "We aim to beat any comparable written quotes by up to",
         highlightText := some "15%",
         buttonText := some "Learn More",
         buttonLink := some "#contact" }, ([] : List PromoDoc)) := rfl

/-- Claim C3: for both bulk sync operations, a request body without the
expected array field still empties the collection before the failure is
reported: the response is an error, yet the collection is left empty, for
any prior contents. -/
theorem sync_missing_field_clears_collection (s₁ : List CategoryDoc)
    (s₂ : List GalleryDoc) (gen : Nat → String) (t : Nat) :
    (∃ e, productsSync none s₁ = (Except.error e, [])) ∧
    (∃ e, gallerySync gen t none s₂ = (Except.error e, [])) :=
  ⟨⟨"categories is not iterable", rfl⟩, ⟨"items is not defined", rfl⟩⟩

/-- Claim C7: deleting a category key that matches no stored document
returns success and leaves the collection exactly as it was. -/
theorem category_delete_missing_key_noop (key : String)
    (s : List CategoryDoc) (h : ∀ d ∈ s, ¬ d.id = some key) :
    categoryDelete key s = (true, s) := by
  have hs : splitAtId key s = none := (splitAtId_eq_none_iff key s).mpr h
  unfold categoryDelete
  rw [hs]

theorem category_delete_missing_key_noop_witness :
    categoryDelete "missing" [{ id := some "w1", type := some "windows", title := some "Windows" }] =
      (true, [{ id := some "w1", type := some "windows", title := some "Windows" }]) :=
  category_delete_missing_key_noop "missing"
    [{ id := some "w1", type := some "windows", title := some "Windows" }]
    (by decide)

/-- Claim C8: when a promo document exists, the promo upsert merges exactly
the body fields into the first stored document and persists it (every field
present in the body takes the body value, every other field keeps its
stored value); when none exists, a new document is created from exactly the
body fields. -/
theorem promo_put_merge_or_create (b : PromoBody) (p : PromoDoc)
    (rest : List PromoDoc) :
    promoPut b [] = (promoFromBody b, [promoFromBody b]) ∧
    promoPut b (p :: rest) = (mergePromo p b, mergePromo p b :: rest) ∧
    (mergePromo p b).tagText =
      (match b.tagText with | some v => some v | none => p.tagText) ∧
    (mergePromo p b).title =
      (match b.title with | some v => some v | none => p.title) ∧
    (mergePromo p b).description =
      (match b.description with | some v => some v | none => p.description) ∧
    (mergePromo p b).highlightText =
      (match b.highlightText with | some v => some v | none => p.highlightText) ∧
    (mergePromo p b).buttonText =
      (match b.buttonText with | some v => some v | none => p.buttonText) ∧
    (mergePromo p b).buttonLink =
      (match b.buttonLink with | some v => some v | none => p.buttonLink) ∧
    (promoFromBody b).tagText = b.tagText ∧
    (promoFromBody b).title = b.title ∧
    (promoFromBody b).description = b.description ∧
    (promoFromBody b).highlightText = b.highlightText ∧
    (promoFromBody b).buttonText = b.buttonText ∧
    (promoFromBody b).buttonLink = b.buttonLink := by
  refine ⟨rfl, rfl, ?_, ?_, ?_, ?_, ?_, ?_, rfl, rfl, rfl, rfl, rfl, rfl⟩
  · cases hb : b.tagText <;> simp [mergePromo, hb]
  · cases hb : b.title <;> simp [mergePromo, hb]
  · cases hb : b.description <;> simp [mergePromo, hb]
  · cases hb : b.highlightText <;> simp [mergePromo, hb]
  · cases hb : b.buttonText <;> simp [mergePromo, hb]
  · cases hb : b.buttonLink <;> simp [mergePromo, hb]

/-- Claim C10: the gallery delete-by-identifier operation succeeds exactly
when the identifier string is a well-formed store identifier, whether or
not a document matches; on a malformed identifier it returns the generic
error response and leaves the collection untouched. -/
theorem gallery_delete_success_iff_valid_id (sId : String)
    (s : List GalleryDoc) :
    ((galleryDeleteById sId s).1 = Except.ok () ↔ validObjectId sId = true) ∧
    (validObjectId sId = false →
      galleryDeleteById sId s = (Except.error "Cast to ObjectId failed", s)) := by
  by_cases hv : validObjectId sId = true
  · refine ⟨⟨fun _ => hv, fun _ => ?_⟩, fun hf => absurd hv (by simp [hf])⟩
    rcases splitAtOid_fst_cases sId s with h | h
    · exact h
    · unfold galleryDeleteById at h
      rw [if_pos hv] at h
      revert h
      cases splitAtOid sId s with
      | none => intro h; exact absurd h (by simp)
      | some trip =>
        obtain ⟨pre, e, post⟩ := trip
        intro h; exact absurd h (by simp)
  · have hv' : validObjectId sId = false := by
      revert hv; cases validObjectId sId <;> simp
    refine ⟨⟨fun hok => ?_, fun h => absurd h hv⟩, fun _ => ?_⟩
    · have : (galleryDeleteById sId s).1 = Except.error "Cast to ObjectId failed" := by
        unfold galleryDeleteById
        rw [if_neg hv]
      rw [hok] at this
      exact absurd this (by simp)
    · unfold galleryDeleteById
      rw [if_neg hv]

theorem gallery_delete_success_iff_valid_id_witness :
    galleryDeleteById "zz" [{ oid := "aaaaaaaaaaaaaaaaaaaaaaaa" }] =
      (Except.error "Cast to ObjectId failed",
        [{ oid := "aaaaaaaaaaaaaaaaaaaaaaaa" }]) :=
  (gallery_delete_success_iff_valid_id "zz"
    [{ oid := "aaaaaaaaaaaaaaaaaaaaaaaa" }]).2 (by decide)

theorem insertByTime_const (t : Nat) (d : GalleryDoc) (hd : d.createdAt = t) :
    ∀ s : List GalleryDoc, (∀ e ∈ s, e.createdAt = t) →
      insertByTime d s = d :: s
  | [], _ => rfl
  | e :: es, h => by
    have he : e.createdAt = t := h e (by simp)
    rw [insertByTime, if_pos (by rw [hd, he])]

theorem sortByTimeDesc_const (t : Nat) :
    ∀ s : List GalleryDoc, (∀ e ∈ s, e.createdAt = t) →
      sortByTimeDesc s = s
  | [], _ => rfl
  | d :: ds, h => by
    have ih := sortByTimeDesc_const t ds
      (fun e he => h e (List.mem_cons_of_mem d he))
    rw [sortByTimeDesc, ih]
    exact insertByTime_const t d (h d (by simp)) ds
      (fun e he => h e (List.mem_cons_of_mem d he))

theorem insertManyDocs_createdAt (gen : Nat → String) (t : Nat) :
    ∀ (Y : List GalleryBody) (i : Nat) (d : GalleryDoc),
      d ∈ insertManyDocs gen t i Y → d.createdAt = t
  | [], _, d, h => by simp [insertManyDocs] at h
  | b :: rest, i, d, h => by
    rw [insertManyDocs] at h
    rcases List.mem_cons.mp h with h | h
    · subst h; rfl
    · exact insertManyDocs_createdAt gen t rest (i + 1) d h

theorem insertManyDocs_content (gen : Nat → String) (t : Nat) :
    ∀ (Y : List GalleryBody) (i : Nat),
      (insertManyDocs gen t i Y).map stripGenerated = Y.map normalizeGallery
  | [], _ => rfl
  | b :: rest, i => by
    rw [insertManyDocs, List.map_cons, List.map_cons,
      insertManyDocs_content gen t rest (i + 1)]
    rfl

/-- Claim C9: the gallery List operation returns the stored documents
newest first: creating three items at times t1 < t2 < t3 and then listing
returns them in the order third, second, first. -/
theorem gallery_list_newest_first (o1 o2 o3 : String) (t1 t2 t3 : Nat)
    (b1 b2 b3 : GalleryBody)
    (hv1 : validGalleryBody b1 = true) (hv2 : validGalleryBody b2 = true)
    (hv3 : validGalleryBody b3 = true) (h12 : t1 < t2) (h23 : t2 < t3) :
    galleryCreate o1 t1 b1 [] =
      Except.ok (castGallery o1 t1 b1, [castGallery o1 t1 b1]) ∧
    galleryCreate o2 t2 b2 [castGallery o1 t1 b1] =
      Except.ok (castGallery o2 t2 b2,
        [castGallery o1 t1 b1, castGallery o2 t2 b2]) ∧
    galleryCreate o3 t3 b3 [castGallery o1 t1 b1, castGallery o2 t2 b2] =
      Except.ok (castGallery o3 t3 b3,
        [castGallery o1 t1 b1, castGallery o2 t2 b2, castGallery o3 t3 b3]) ∧
    galleryList [castGallery o1 t1 b1, castGallery o2 t2 b2, castGallery o3 t3 b3] =
      [castGallery o3 t3 b3, castGallery o2 t2 b2, castGallery o1 t1 b1] := by
  have h13 : t1 < t3 := Nat.lt_trans h12 h23
  have n32 : ¬ (castGallery o3 t3 b3).createdAt ≤ (castGallery o2 t2 b2).createdAt :=
    Nat.not_le.mpr h23
  have n31 : ¬ (castGallery o3 t3 b3).createdAt ≤ (castGallery o1 t1 b1).createdAt :=
    Nat.not_le.mpr h13
  have n21 : ¬ (castGallery o2 t2 b2).createdAt ≤ (castGallery o1 t1 b1).createdAt :=
    Nat.not_le.mpr h12
  refine ⟨?_, ?_, ?_, ?_⟩
  · rw [galleryCreate, if_pos hv1]; rfl
  · rw [galleryCreate, if_pos hv2]; rfl
  · rw [galleryCreate, if_pos hv3]; rfl
  · rw [galleryList, sortByTimeDesc, sortByTimeDesc, sortByTimeDesc,
      sortByTimeDesc, insertByTime, insertByTime, if_neg n32, insertByTime,
      insertByTime, if_neg n31, insertByTime, if_neg n21, insertByTime]

theorem gallery_list_newest_first_witness :
    galleryCreate "oa" 1 { url := some "u1", title := some "a", location := some "l" } [] =
      Except.ok (castGallery "oa" 1 { url := some "u1", title := some "a", location := some "l" },
        [castGallery "oa" 1 { url := some "u1", title := some "a", location := some "l" }]) ∧
    galleryCreate "ob" 2 { url := some "u2", title := some "b", location := some "l" }
        [castGallery "oa" 1 { url := some "u1", title := some "a", location := some "l" }] =
      Except.ok (castGallery "ob" 2 { url := some "u2", title := some "b", location := some "l" },
        [castGallery "oa" 1 { url := some "u1", title := some "a", location := some "l" },
         castGallery "ob" 2 { url := some "u2", title := some "b", location := some "l" }]) ∧
    galleryCreate "oc" 3 { url := some "u3", title := some "c", location := some "l" }
        [castGallery "oa" 1 { url := some "u1", title := some "a", location := some "l" },
         castGallery "ob" 2 { url := some "u2", title := some "b", location := some "l" }] =
      Except.ok (castGallery "oc" 3 { url := some "u3", title := some "c", location := some "l" },
        [castGallery "oa" 1 { url := some "u1", title := some "a", location := some "l" },
         castGallery "ob" 2 { url := some "u2", title := some "b", location := some "l" },
         castGallery "oc" 3 { url := some "u3", title := some "c", location := some "l" }]) ∧
    galleryList
        [castGallery "oa" 1 { url := some "u1", title := some "a", location := some "l" },
         castGallery "ob" 2 { url := some "u2", title := some "b", location := some "l" },
         castGallery "oc" 3 { url := some "u3", title := some "c", location := some "l" }] =
      [castGallery "oc" 3 { url := some "u3", title := some "c", location := some "l" },
       castGallery "ob" 2 { url := some "u2", title := some "b", location := some "l" },
       castGallery "oa" 1 { url := some "u1", title := some "a", location := some "l" }] :=
  gallery_list_newest_first "oa" "ob" "oc" 1 2 3
    { url := some "u1", title := some "a", location := some "l" }
    { url := some "u2", title := some "b", location := some "l" }
    { url := some "u3", title := some "c", location := some "l" }
    (by decide) (by decide) (by decide) (by decide) (by decide)

theorem castCategory_id (b : CategoryBody) : (castCategory b).id = b.id := rfl

theorem insertCats_all_ok :
    ∀ (X : List CategoryBody) (acc : List CategoryDoc),
      (∀ b ∈ X, validCategoryBody b = true) →
      (∀ b ∈ X, ∀ d ∈ acc, ¬ d.id = b.id) →
      (X.map CategoryBody.id).Nodup →
      insertCats X acc = (none, acc ++ X.map castCategory)
  | [], acc, _, _, _ => by simp [insertCats]
  | c :: rest, acc, hv, hdisj, hnd => by
    have hvc : validCategoryBody c = true := hv c (by simp)
    have hnodup : ¬ (castCategory c).id ∈ rest.map CategoryBody.id := by
      rw [castCategory_id]
      exact (List.nodup_cons.mp (by simpa using hnd)).1
    have hanyf : acc.any (fun e => decide (e.id = (castCategory c).id)) = false :=
      any_id_eq_false (fun x hx => by
        rw [castCategory_id]
        exact hdisj c (by simp) x hx)
    have ih := insertCats_all_ok rest (acc ++ [castCategory c])
      (fun b hb => hv b (List.mem_cons_of_mem c hb))
      (fun b hb d hd => by
        rcases List.mem_append.mp hd with hda | hdc
        · exact hdisj b (List.mem_cons_of_mem c hb) d hda
        · have hdc' : d = castCategory c := by simpa using hdc
          subst hdc'
          rw [castCategory_id]
          intro hcontra
          exact hnodup (by
            rw [castCategory_id, hcontra]
            exact List.mem_map_of_mem CategoryBody.id hb)
      )
      ((List.nodup_cons.mp (by simpa using hnd)).2)
    rw [insertCats, categoryCreate, if_pos hvc]
    simp only [hanyf, Bool.false_eq_true, if_false]
    rw [ih]
    simp

theorem insertCats_ok_state :
    ∀ (X : List CategoryBody) (acc acc' : List CategoryDoc),
      insertCats X acc = (none, acc') → acc' = acc ++ X.map castCategory
  | [], acc, acc', h => by
    rw [insertCats] at h
    obtain ⟨h1, h2⟩ := Prod.mk.injEq .. ▸ h
    simp [← h2]
  | c :: rest, acc, acc', h => by
    rw [insertCats] at h
    cases hc : categoryCreate c acc with
    | ok pair =>
      obtain ⟨d, acc1⟩ := pair
      rw [hc] at h
      have hacc1 : acc1 = acc ++ [castCategory c] := by
        revert hc
        unfold categoryCreate
        by_cases hv : validCategoryBody c = true
        · rw [if_pos hv]
          by_cases hd : acc.any (fun e => decide (e.id = (castCategory c).id)) = true
          · simp [hd]
          · simp only [Bool.not_eq_true] at hd
            simp only [hd, Bool.false_eq_true, if_false]
            intro hok
            have := (Except.ok.injEq _ _).mp hok
            exact (Prod.mk.injEq .. ▸ this).2.symm
        · rw [if_neg hv]
          intro hcontra
          exact absurd hcontra (by simp)
      have := insertCats_ok_state rest acc1 acc' h
      rw [this, hacc1]
      simp
    | error e =>
      rw [hc] at h
      exact absurd h (by simp)

theorem insertCats_fail :
    ∀ (X : List CategoryBody) (acc acc' : List CategoryDoc) (e : String),
      insertCats X acc = (some e, acc') →
      ∃ k, ∃ hk : k < X.length,
        insertCats (X.take k) acc = (none, acc') ∧
        categoryCreate (X.get ⟨k, hk⟩) acc' = Except.error e
  | [], acc, acc', e, h => by
    rw [insertCats] at h
    exact absurd h (by simp)
  | c :: rest, acc, acc', e, h => by
    rw [insertCats] at h
    cases hc : categoryCreate c acc with
    | ok pair =>
      obtain ⟨d, acc1⟩ := pair
      rw [hc] at h
      obtain ⟨k, hk, h1, h2⟩ := insertCats_fail rest acc1 acc' e h
      refine ⟨k + 1, by simpa using Nat.succ_lt_succ hk, ?_, ?_⟩
      · rw [List.take_succ_cons, insertCats, hc]
        exact h1
      · simpa using h2
    | error e0 =>
      rw [hc] at h
      obtain ⟨h1, h2⟩ := Prod.mk.injEq .. ▸ h
      have he : e0 = e := by simpa using h1
      refine ⟨0, by simp, ?_, ?_⟩
      · rw [List.take_zero, insertCats, h2]
      · rw [← h2]
        have hc0 : categoryCreate ((c :: rest).get ⟨0, by simp⟩) acc = Except.error e0 := hc
        rw [hc0, he]

/-- Claim C1: bulk sync with a sequence of valid documents followed by List
returns exactly the input sequence, modulo store-generated fields, for both
the category sync and the gallery sync, including the empty sequence.  For
categories the listed documents are exactly the cast inputs; for the
gallery the listed documents, stripped of the store-generated identifier
and creation time, are exactly the normalized inputs. -/
theorem sync_then_list_returns_input
    (X : List CategoryBody) (s₁ : List CategoryDoc)
    (Y : List GalleryBody) (s₂ : List GalleryDoc)
    (gen : Nat → String) (t : Nat)
    (hXv : ∀ b ∈ X, validCategoryBody b = true)
    (hXid : (X.map CategoryBody.id).Nodup)
    (hYv : ∀ b ∈ Y, validGalleryBody b = true) :
    productsSync (some X) s₁ = (Except.ok X.length, X.map castCategory) ∧
    productsList (X.map castCategory) = X.map castCategory ∧
    gallerySync gen t (some Y) s₂ =
      (Except.ok Y.length, insertManyDocs gen t 0 Y) ∧
    galleryList (insertManyDocs gen t 0 Y) = insertManyDocs gen t 0 Y ∧
    (insertManyDocs gen t 0 Y).map stripGenerated = Y.map normalizeGallery := by
  have hins := insertCats_all_ok X []
    hXv (fun b hb d hd => absurd hd (by simp)) hXid
  have hall : Y.all validGalleryBody = true := List.all_eq_true.mpr hYv
  refine ⟨?_, rfl, ?_, ?_, insertManyDocs_content gen t Y 0⟩
  · rw [productsSync, hins]
    simp
  · rw [gallerySync, if_pos hall]
  · exact sortByTimeDesc_const t (insertManyDocs gen t 0 Y)
      (fun d hd => insertManyDocs_createdAt gen t Y 0 d hd)

theorem sync_then_list_returns_input_witness :
    productsSync (some [{ id := some "w1", type := some "windows", title := some "W" }]) [] =
      (Except.ok 1, [{ id := some "w1", type := some "windows", title := some "W" }].map castCategory) ∧
    productsList ([{ id := some "w1", type := some "windows", title := some "W" }].map castCategory) =
      [{ id := some "w1", type := some "windows", title := some "W" }].map castCategory ∧
    gallerySync (fun _ => "x") 7 (some [{ url := some "u", title := some "t", location := some "l" }]) [] =
      (Except.ok 1, insertManyDocs (fun _ => "x") 7 0 [{ url := some "u", title := some "t", location := some "l" }]) ∧
    galleryList (insertManyDocs (fun _ => "x") 7 0 [{ url := some "u", title := some "t", location := some "l" }]) =
      insertManyDocs (fun _ => "x") 7 0 [{ url := some "u", title := some "t", location := some "l" }] ∧
    (insertManyDocs (fun _ => "x") 7 0 [{ url := some "u", title := some "t", location := some "l" }]).map stripGenerated =
      [{ url := some "u", title := some "t", location := some "l" }].map normalizeGallery :=
  sync_then_list_returns_input
    [{ id := some "w1", type := some "windows", title := some "W" }] []
    [{ url := some "u", title := some "t", location := some "l" }] []
    (fun _ => "x") 7 (by decide) (by decide) (by decide)

/-- Claim C2: when the category sync fails while inserting the k-th
document of its input, the collection afterwards holds exactly the casts of
the successfully inserted front `X.take k` of the new sequence (none of the
previously stored documents remain, since the delete ran first), and the
k-th create is the failing one. -/
theorem products_sync_failure_keeps_inserted_front
    (X : List CategoryBody) (s s' : List CategoryDoc) (e : String)
    (h : productsSync (some X) s = (Except.error e, s')) :
    ∃ k, ∃ hk : k < X.length,
      s' = (X.take k).map castCategory ∧
      categoryCreate (X.get ⟨k, hk⟩) s' = Except.error e := by
  rw [productsSync] at h
  cases hins : insertCats X [] with
  | mk o acc =>
    rw [hins] at h
    cases o with
    | none => exact absurd h (by simp)
    | some e0 =>
      obtain ⟨h1, h2⟩ := Prod.mk.injEq .. ▸ h
      have he0 : e0 = e := by simpa using h1
      subst h2
      obtain ⟨k, hk, hstate, hfail⟩ := insertCats_fail X [] acc e0 hins
      refine ⟨k, hk, by simpa using insertCats_ok_state (X.take k) [] acc hstate, ?_⟩
      rw [hfail, he0]

theorem products_sync_failure_keeps_inserted_front_witness :
    ∃ k, ∃ hk : k < ([{ id := some "a", type := some "windows", title := some "A" },
        { id := some "a", type := some "doors", title := some "B" }] : List CategoryBody).length,
      [castCategory { id := some "a", type := some "windows", title := some "A" }] =
        (([{ id := some "a", type := some "windows", title := some "A" },
           { id := some "a", type := some "doors", title := some "B" }] : List CategoryBody).take k).map castCategory ∧
      categoryCreate (([{ id := some "a", type := some "windows", title := some "A" },
           { id := some "a", type := some "doors", title := some "B" }] : List CategoryBody).get ⟨k, hk⟩)
          [castCategory { id := some "a", type := some "windows", title := some "A" }] =
        Except.error "duplicate key" :=
  products_sync_failure_keeps_inserted_front
    [{ id := some "a", type := some "windows", title := some "A" },
     { id := some "a", type := some "doors", title := some "B" }]
    [{ id := some "old", type := some "doors", title := some "Old" }]
    [castCategory { id := some "a", type := some "windows", title := some "A" }]
    "duplicate key" (by rfl)

/-- Claim C6 is false as stated: upserting key "X" with the body carrying
id "Y" and a title creates a document whose key field is "Y", not "X", and
the created document violates the schema rule that `type` is required. -/
theorem category_upsert_claim_counterexample :
    categoryUpsert "X" { id := some "Y", title := some "tt" } [] =
      Except.ok (upsertNewDoc "X" { id := some "Y", title := some "tt" },
        [upsertNewDoc "X" { id := some "Y", title := some "tt" }]) ∧
    (upsertNewDoc "X" { id := some "Y", title := some "tt" }).id = some "Y" ∧
    ¬ (upsertNewDoc "X" { id := some "Y", title := some "tt" }).id = some "X" ∧
    validCategoryDoc (upsertNewDoc "X" { id := some "Y", title := some "tt" }) = false :=
  ⟨rfl, rfl, by decide, rfl⟩

/-- Claim C6 (amended): the upsert overwrites exactly the body fields of
the first document whose key field equals the given id; when no document
matches, it inserts a document built from the key and the body fields, the
body winning on the key field; update validation applies to the fields
present in the body, not to required fields absent from it; the operation
returns the resulting document. -/
theorem category_upsert_amended (key : String) (b : CategoryBody)
    (pre post s : List CategoryDoc) (d : CategoryDoc)
    (hv : validUpdateBody b = true) :
    ((∀ x ∈ pre, ¬ x.id = some key) → d.id = some key →
      (∀ x ∈ pre ++ post, ¬ x.id = (applyBodySet b d).id) →
      categoryUpsert key b (pre ++ d :: post) =
        Except.ok (applyBodySet b d, pre ++ applyBodySet b d :: post)) ∧
    ((∀ x ∈ s, ¬ x.id = some key) →
      (∀ x ∈ s, ¬ x.id = (upsertNewDoc key b).id) →
      categoryUpsert key b s =
        Except.ok (upsertNewDoc key b, s ++ [upsertNewDoc key b])) ∧
    (upsertNewDoc key b).id = (b.id <|> some key) ∧
    (applyBodySet b d).id = (b.id <|> d.id) ∧
    (applyBodySet b d).type = (b.type <|> d.type) ∧
    (applyBodySet b d).title = (b.title <|> d.title) ∧
    (applyBodySet b d).description = (b.description <|> d.description) ∧
    (applyBodySet b d).image = (b.image <|> d.image) := by
  refine ⟨?_, ?_, rfl, rfl, rfl, rfl, rfl, rfl⟩
  · intro hpre hd hdup
    have hdupf := any_id_eq_false hdup
    rw [categoryUpsert, if_pos hv, splitAtId_of_parts key d hd pre hpre post]
    simp only [hdupf, Bool.false_eq_true, if_false]
  · intro hno hdup
    have hnone : splitAtId key s = none := (splitAtId_eq_none_iff key s).mpr hno
    have hdupf := any_id_eq_false hdup
    rw [categoryUpsert, if_pos hv, hnone]
    simp only [hdupf, Bool.false_eq_true, if_false]

theorem category_upsert_amended_witness :
    categoryUpsert "k" { type := some "doors", title := some "T" }
        [{ id := some "k", type := some "windows", title := some "Old" }] =
      Except.ok
        (applyBodySet { type := some "doors", title := some "T" }
          { id := some "k", type := some "windows", title := some "Old" },
         [applyBodySet { type := some "doors", title := some "T" }
          { id := some "k", type := some "windows", title := some "Old" }]) :=
  (category_upsert_amended "k" { type := some "doors", title := some "T" }
    [] [] [] { id := some "k", type := some "windows", title := some "Old" }
    (by decide)).1 (by decide) (by decide) (by decide)

theorem orElse_absorb {α : Type} (a b : Option α) :
    (a <|> (a <|> b)) = (a <|> b) := by
  cases a <;> rfl

theorem orElse_self {α : Type} (a : Option α) : (a <|> a) = a := by
  cases a <;> rfl

theorem applyBodySet_idem (b : CategoryBody) (d : CategoryDoc) :
    applyBodySet b (applyBodySet b d) = applyBodySet b d := by
  cases hb : b.products with
  | none => simp [applyBodySet, hb, orElse_absorb]
  | some ps => simp [applyBodySet, hb, orElse_absorb]

theorem applyBodySet_upsertNew (key : String) (b : CategoryBody) :
    applyBodySet b (upsertNewDoc key b) = upsertNewDoc key b := by
  cases hb : b.products with
  | none => simp [applyBodySet, upsertNewDoc, hb, orElse_absorb, orElse_self]
  | some ps => simp [applyBodySet, upsertNewDoc, hb, orElse_absorb, orElse_self]

/-- Claim C5: on a collection whose stored key fields are pairwise
distinct (the invariant the unique index maintains), applying the category
upsert twice with the same key and body leaves the store in the same state
as applying it once. -/
theorem category_upsert_idempotent (key : String) (b : CategoryBody)
    (s : List CategoryDoc) (hnd : (s.map CategoryDoc.id).Nodup) :
    upsertState key b (upsertState key b s) = upsertState key b s := by
  by_cases hv : validUpdateBody b = true
  case neg =>
    have h1 : upsertState key b s = s := by
      rw [upsertState, categoryUpsert, if_neg hv]
    rw [h1, h1]
  case pos =>
  cases hsplit : splitAtId key s with
  | some trip =>
    obtain ⟨pre, d, post⟩ := trip
    obtain ⟨hs_eq, hd_id, hpre⟩ := splitAtId_spec key s pre post d hsplit
    cases hdup : (pre ++ post).any
        (fun e => decide (e.id = (applyBodySet b d).id)) with
    | true =>
      have h1 : upsertState key b s = s := by
        rw [upsertState, categoryUpsert, if_pos hv, hsplit]
        simp only [hdup, if_true]
      rw [h1, h1]
    | false =>
      have h1 : upsertState key b s = pre ++ applyBodySet b d :: post := by
        rw [upsertState, categoryUpsert, if_pos hv, hsplit]
        simp only [hdup, Bool.false_eq_true, if_false]
      rw [h1]
      by_cases hid : (applyBodySet b d).id = some key
      case pos =>
        have hsplit2 : splitAtId key (pre ++ applyBodySet b d :: post) =
            some (pre, applyBodySet b d, post) :=
          splitAtId_of_parts key (applyBodySet b d) hid pre hpre post
        have hidem := applyBodySet_idem b d
        have hdup2 : (pre ++ post).any
            (fun e => decide (e.id = (applyBodySet b (applyBodySet b d)).id)) = false := by
          rw [hidem]; exact hdup
        rw [upsertState, categoryUpsert, if_pos hv, hsplit2]
        simp only [hdup2, Bool.false_eq_true, if_false]
        rw [hidem]
      case neg =>
        have hpost : ∀ x ∈ post, ¬ x.id = some key := by
          intro x hx hxk
          have hnd2 : ((pre ++ d :: post).map CategoryDoc.id).Nodup := by
            rw [← hs_eq]; exact hnd
          rw [List.map_append, List.map_cons] at hnd2
          have hnd3 := hnd2.of_append_right
          have hdnotin := (List.nodup_cons.mp hnd3).1
          exact hdnotin (by
            rw [hd_id, ← hxk]
            exact List.mem_map_of_mem CategoryDoc.id hx)
        have hsplit2 : splitAtId key (pre ++ applyBodySet b d :: post) = none := by
          rw [splitAtId_eq_none_iff]
          intro x hx
          rcases List.mem_append.mp hx with hxp | hxc
          · exact hpre x hxp
          · rcases List.mem_cons.mp hxc with hxd | hxq
            · subst hxd; exact hid
            · exact hpost x hxq
        have hnid : (upsertNewDoc key b).id = (applyBodySet b d).id := by
          show (b.id <|> some key) = (b.id <|> d.id)
          rw [hd_id]
        have hdup2 : (pre ++ applyBodySet b d :: post).any
            (fun e => decide (e.id = (upsertNewDoc key b).id)) = true := by
          rw [List.any_eq_true]
          exact ⟨applyBodySet b d, by simp, by simp [hnid]⟩
        rw [upsertState, categoryUpsert, if_pos hv, hsplit2]
        simp only [hdup2, if_true]
  | none =>
    have hno : ∀ x ∈ s, ¬ x.id = some key :=
      (splitAtId_eq_none_iff key s).mp hsplit
    cases hdup : s.any (fun e => decide (e.id = (upsertNewDoc key b).id)) with
    | true =>
      have h1 : upsertState key b s = s := by
        rw [upsertState, categoryUpsert, if_pos hv, hsplit]
        simp only [hdup, if_true]
      rw [h1, h1]
    | false =>
      have h1 : upsertState key b s = s ++ [upsertNewDoc key b] := by
        rw [upsertState, categoryUpsert, if_pos hv, hsplit]
        simp only [hdup, Bool.false_eq_true, if_false]
      rw [h1]
      by_cases hid : (upsertNewDoc key b).id = some key
      case pos =>
        have hsplit2 : splitAtId key (s ++ [upsertNewDoc key b]) =
            some (s, upsertNewDoc key b, []) :=
          splitAtId_of_parts key (upsertNewDoc key b) hid s hno []
        have hidem := applyBodySet_upsertNew key b
        have hdup2 : (s ++ []).any
            (fun e => decide (e.id = (applyBodySet b (upsertNewDoc key b)).id)) = false := by
          rw [hidem]
          simpa using hdup
        rw [upsertState, categoryUpsert, if_pos hv, hsplit2]
        simp only [hdup2, Bool.false_eq_true, if_false]
        rw [hidem]
      case neg =>
        have hsplit2 : splitAtId key (s ++ [upsertNewDoc key b]) = none := by
          rw [splitAtId_eq_none_iff]
          intro x hx
          rcases List.mem_append.mp hx with hxs | hxn
          · exact hno x hxs
          · have hxeq : x = upsertNewDoc key b := by simpa using hxn
            subst hxeq; exact hid
        have hdup2 : (s ++ [upsertNewDoc key b]).any
            (fun e => decide (e.id = (upsertNewDoc key b).id)) = true := by
          rw [List.any_eq_true]
          exact ⟨upsertNewDoc key b, by simp, by simp⟩
        rw [upsertState, categoryUpsert, if_pos hv, hsplit2]
        simp only [hdup2, if_true]

theorem category_upsert_idempotent_witness :
    upsertState "k" { title := some "T" }
        (upsertState "k" { title := some "T" }
          [{ id := some "w1", type := some "windows", title := some "W" }]) =
      upsertState "k" { title := some "T" }
        [{ id := some "w1", type := some "windows", title := some "W" }] :=
  category_upsert_idempotent "k" { title := some "T" }
    [{ id := some "w1", type := some "windows", title := some "W" }]
    (by simp)

end Haven
